import Mathlib

/-!
Verification of the market-data synchronization and trend-prediction engine of
the stock-trend backend. Prices are modelled as rationals, calendar dates as
natural numbers, Python strings as Lean strings over their character lists.
Fallible provider and store calls are modelled with Except: an error value
stands for a raised exception, an empty list for an empty data frame.
-/

namespace StockTrend

/-- Python str.upper for the ASCII ticker symbols used here. -/
def pyUpper (s : String) : String := ⟨s.data.map Char.toUpper⟩

/-- Python str.endswith. -/
def pyEndsWith (s suf : String) : Bool := suf.data.isSuffixOf s.data

/-- Python membership test of a character in a string. -/
def pyContains (s : String) (c : Char) : Bool := s.data.contains c

/-- Python str.replace scanning left to right replacing non-overlapping
occurrences of a nonempty pattern; fuel bounds the scan and is instantiated
with the string length, which suffices because every step consumes at least
one character. -/
def replaceFuel (old new : List Char) : Nat → List Char → List Char
  | _, [] => []
  | 0, l => l
  | fuel+1, c :: rest =>
    if old.isPrefixOf (c :: rest) && !old.isEmpty then
      new ++ replaceFuel old new fuel ((c :: rest).drop old.length)
    else
      c :: replaceFuel old new fuel rest

/-- Python str.replace for the nonempty patterns used by the engine. -/
def pyReplace (s old new : String) : String :=
  ⟨replaceFuel old.data new.data s.data.length s.data⟩

/-- Round half to even on an integer scale, the tie rule of Python round. -/
def roundHalfEven (x : ℚ) : ℤ :=
  if x - ⌊x⌋ < 1/2 then ⌊x⌋
  else if 1/2 < x - ⌊x⌋ then ⌊x⌋ + 1
  else if ⌊x⌋ % 2 = 0 then ⌊x⌋ else ⌊x⌋ + 1

/-- Python round(x, 2) on the rational model of the machine numbers. -/
def round2 (x : ℚ) : ℚ := (roundHalfEven (x * 100) : ℚ) / 100

/-- Python int() on a number: truncation toward zero. -/
def int_trunc (x : ℚ) : ℤ := if 0 ≤ x then ⌊x⌋ else -⌊-x⌋

/-- One daily bar of the fetched history (a row of the provider data frame). -/
structure Bar where
  date : Nat
  open_ : ℚ
  high : ℚ
  low : ℚ
  close : ℚ
  volume : ℚ
deriving DecidableEq

/-- A row of the stocks table; only the columns the engine reads. -/
structure Stock where
  id : Nat
  symbol : String
deriving DecidableEq

/-- A row of the stock_prices table. -/
structure StockPrice where
  stock_id : Nat
  date : Nat
  open_ : ℚ
  high : ℚ
  low : ℚ
  close : ℚ
  volume : ℚ
deriving DecidableEq

/-- The durable store as the engine sees it. commitOk models whether the one
commit the engine issues succeeds; a failed commit rolls the batch back. -/
structure DB where
  stocks : List Stock
  prices : List StockPrice
  commitOk : Bool
deriving DecidableEq

/-- The external world of one call: the provider (symbol, period to a series
or a raised error) and the current date. -/
structure Env where
  fetch : String → String → Except String (List Bar)
  today : Nat

/-- The signal values the engine emits. -/
inductive Signal
  | UP
  | DOWN
  | NEUTRAL
  | UNKNOWN
  | ERROR
deriving DecidableEq

/-- The dictionary predict_stock_trend returns; absent keys are none. -/
structure PredictResult where
  prediction : Signal
  confidence : ℚ
  date : Nat
  current_price : Option ℚ
  sma_50 : Option ℚ
  note : Option String
deriving DecidableEq

/-- The dictionary get_market_sentiment returns. -/
structure SentimentResult where
  sentiment : String
  confidence : ℤ
  vix : ℚ
  nifty_price : ℚ
  error : Option String
deriving DecidableEq

/-- Candidate list of validate_ticker (ml_engine.py lines 15 to 18). -/
def vtCandidates (symbol : String) : List String :=
  let u := pyUpper symbol
  if !pyEndsWith u ".NS" && !pyEndsWith u ".BO" then [u, u ++ ".NS", u ++ ".BO"]
  else [u]

/-- Probe loop of validate_ticker (lines 20 to 30): a one day history per
candidate, a raised provider error skips to the next candidate, the first
non-empty history wins. -/
def vtGo (fetch : String → String → Except String (List Bar)) :
    List String → Option String
  | [] => none
  | c :: rest =>
    match fetch c "1d" with
    | .error _ => vtGo fetch rest
    | .ok h => if h.isEmpty then vtGo fetch rest else some c

/-- validate_ticker (ml_engine.py lines 10 to 30). -/
def validate_ticker (fetch : String → String → Except String (List Bar))
    (symbol : String) : Option String :=
  vtGo fetch (vtCandidates symbol)

/-- Candidate list as claim C5 words it: the upper-cased input alone when it
already carries a recognized exchange suffix, otherwise raw then .NS then .BO. -/
def claimResolverCandidates (symbol : String) : List String :=
  let u := pyUpper symbol
  if pyEndsWith u ".NS" || pyEndsWith u ".BO" then [u]
  else [u, u ++ ".NS", u ++ ".BO"]

/-- Whether one candidate probes successfully: a non-empty one day history,
with a provider error counting as failure for that candidate only. -/
def probeOk (fetch : String → String → Except String (List Bar))
    (c : String) : Bool :=
  match fetch c "1d" with
  | .error _ => false
  | .ok h => !h.isEmpty

/-- Initial symbol choice of predict_stock_trend (lines 86 to 88): append .NS
when the symbol carries no exchange marker and no dot. -/
def addNS (t : String) : String :=
  if !pyEndsWith t ".NS" && !pyEndsWith t ".BO" && !pyContains t '.' then t ++ ".NS"
  else t

/-- Fallback 2 of predict_stock_trend (lines 100 to 105): when the current
history is empty and the current symbol differs from the raw upper-cased
input, refetch under the raw input. -/
def fallback2 (fetch : String → String → Except String (List Bar))
    (ticker_symbol : String) : String × List Bar → Except String (String × List Bar)
  | (chosen, hist) =>
    if hist.isEmpty && (chosen != ticker_symbol) then
      match fetch ticker_symbol "3mo" with
      | .error e => .error e
      | .ok h => .ok (ticker_symbol, h)
    else .ok (chosen, hist)

/-- History resolution of predict_stock_trend (ml_engine.py lines 86 to 105):
initial choice, fallback 1 replacing .NS by .BO, then fallback 2; every step
requests a 3 month history and a raised provider error propagates. -/
def fetchHistWithFallback (fetch : String → String → Except String (List Bar))
    (ticker_symbol : String) : Except String (String × List Bar) :=
  let c1 := addNS ticker_symbol
  match fetch c1 "3mo" with
  | .error e => .error e
  | .ok h1 =>
    if h1.isEmpty && pyEndsWith c1 ".NS" then
      match fetch (pyReplace c1 ".NS" ".BO") "3mo" with
      | .error e => .error e
      | .ok h2 => fallback2 fetch ticker_symbol (pyReplace c1 ".NS" ".BO", h2)
    else fallback2 fetch ticker_symbol (c1, h1)

/-- Candidate chain as claim C3 words it: the symbol as given with .NS
appended when it has no exchange marker and no dot, then its .BO variant when
that candidate is .NS suffixed, then the raw upper-cased symbol. -/
def claimFallbackCandidates (ticker_symbol : String) : List String :=
  let c1 := addNS ticker_symbol
  c1 :: ((if pyEndsWith c1 ".NS" then [pyReplace c1 ".NS" ".BO"] else []) ++ [ticker_symbol])

/-- First candidate of a chain whose fetched history is non-empty, with the
history it produced. -/
def firstNonEmptyHist (hist : String → List Bar) :
    List String → Option (String × List Bar)
  | [] => none
  | c :: rest => if (hist c).isEmpty then firstNonEmptyHist hist rest else some (c, hist c)

/-- Existence check of a stored bar for one stock and date (lines 131 to 134). -/
def priceExists (prices : List StockPrice) (sid d : Nat) : Bool :=
  prices.any fun p => p.stock_id == sid && p.date == d

/-- A fetched bar as the row the engine inserts (lines 137 to 145). -/
def mkStoredPrice (sid : Nat) (b : Bar) : StockPrice :=
  ⟨sid, b.date, b.open_, b.high, b.low, b.close, b.volume⟩

/-- Persistence loop of predict_stock_trend (lines 127 to 146): for each
fetched bar, insert it only when no bar is stored yet for that stock and
date. The session sees its own pending inserts, so the check runs against the
accumulated list. -/
def syncPrices (prices : List StockPrice) (sid : Nat) : List Bar → List StockPrice
  | [] => prices
  | b :: rest =>
    syncPrices
      (if priceExists prices sid b.date then prices else prices ++ [mkStoredPrice sid b])
      sid rest

/-- Close column of the fetched history. -/
def closes (hist : List Bar) : List ℚ := hist.map fun b => b.close

/-- Most recent close (iloc[-1] of the Close column). -/
def lastClose (hist : List Bar) : ℚ := (closes hist).getLastD 0

/-- Trailing 50 sample simple moving average: the last value of the rolling
mean column, the mean of the most recent 50 closes. -/
def sma50 (cs : List ℚ) : ℚ := (cs.drop (cs.length - 50)).sum / 50

/-- Signal and confidence computation of predict_stock_trend (lines 165 to
188), reached when at least 50 bars exist. -/
def computePrediction (today : Nat) (hist : List Bar) : PredictResult :=
  let last_price := lastClose hist
  let sma := sma50 (closes hist)
  if last_price > sma then
    let diff_pct := (last_price - sma) / sma
    { prediction := .UP, confidence := round2 (min (1/2 + |diff_pct| * 5) (95/100)),
      date := today, current_price := some (round2 last_price),
      sma_50 := some (round2 sma), note := none }
  else
    let diff_pct := (sma - last_price) / sma
    { prediction := .DOWN, confidence := round2 (min (1/2 + |diff_pct| * 5) (95/100)),
      date := today, current_price := some (round2 last_price),
      sma_50 := some (round2 sma), note := none }

/-- Result when no candidate yields data (lines 107 to 113). -/
def unknownResult (today : Nat) : PredictResult :=
  { prediction := .UNKNOWN, confidence := 0, date := today,
    current_price := none, sma_50 := none, note := some "No data found" }

/-- Result when fewer than 50 bars exist (lines 157 to 163). -/
def neutralResult (today : Nat) : PredictResult :=
  { prediction := .NEUTRAL, confidence := 1/2, date := today,
    current_price := none, sma_50 := none, note := some "Insufficient historical data" }

/-- Result of the catch-all handler (lines 190 to 196). -/
def errorResult (today : Nat) : PredictResult :=
  { prediction := .ERROR, confidence := 0, date := today,
    current_price := none, sma_50 := none, note := none }

/-- Body of predict_stock_trend inside its try block (lines 80 to 188): an
error value is a raised exception the handler will catch. Persistence runs
only when a stock row matches the upper-cased raw input, and a failed commit
rolls the inserts back without aborting the prediction. -/
def predictBody (env : Env) (db : DB) (stock_symbol : String) :
    Except String (PredictResult × DB) :=
  let ticker_symbol := pyUpper stock_symbol
  match fetchHistWithFallback env.fetch ticker_symbol with
  | .error e => .error e
  | .ok (_, hist) =>
    if hist.isEmpty then .ok (unknownResult env.today, db)
    else
      let db1 :=
        match db.stocks.find? (fun st => st.symbol == pyUpper stock_symbol) with
        | none => db
        | some st =>
          if db.commitOk then { db with prices := syncPrices db.prices st.id hist }
          else db
      if hist.length < 50 then .ok (neutralResult env.today, db1)
      else .ok (computePrediction env.today hist, db1)

/-- predict_stock_trend (ml_engine.py lines 74 to 196): the body with its
catch-all exception handler. -/
def predict_stock_trend (env : Env) (db : DB) (stock_symbol : String) :
    PredictResult × DB :=
  match predictBody env db stock_symbol with
  | .ok r => r
  | .error _ => (errorResult env.today, db)

/-- Body of get_market_sentiment inside its try block (lines 202 to 226). -/
def sentimentBody (env : Env) (db : DB) : Except String SentimentResult :=
  match env.fetch "^INDIAVIX" "1d" with
  | .error e => .error e
  | .ok vix_hist =>
    let vix_val : ℚ := if vix_hist.isEmpty then 0 else (closes vix_hist).getLastD 0
    let np := (predict_stock_trend env db "^NSEI").1
    let sentiment :=
      if np.prediction = .UP then "Bullish"
      else if np.prediction = .DOWN then "Bearish"
      else "Neutral"
    .ok { sentiment := sentiment, confidence := int_trunc (np.confidence * 100),
          vix := round2 vix_val, nifty_price := np.current_price.getD 0, error := none }

/-- get_market_sentiment (ml_engine.py lines 198 to 234): the body with its
catch-all exception handler. -/
def get_market_sentiment (env : Env) (db : DB) : SentimentResult :=
  match sentimentBody env db with
  | .ok r => r
  | .error e => { sentiment := "Neutral", confidence := 0, vix := 0,
                  nifty_price := 0, error := some e }

/-- One entry of the batch latest-price result. price none renders as the
string N/A, change none as the string 0.0 percent; a computed change renders
as the rounded percentage with an explicit sign. -/
structure QuoteEntry where
  symbol : String
  price : Option ℚ
  change : Option ℚ
deriving DecidableEq

/-- The per-symbol unavailable marker (price N/A, change 0.0 percent). -/
def naEntry (s : String) : QuoteEntry := ⟨s, none, none⟩

/-- Per-symbol processing of get_latest_market_data (ml_engine.py lines 42 to
67): extract models the indexing of the downloaded frame by symbol, whose
failure is the per-symbol exception the inner handler catches. Fewer than two
rows also yield the marker; otherwise the last two closes give the price and
the daily change percentage. -/
def processSymbol (extract : String → Except String (List Bar))
    (symbol : String) : QuoteEntry :=
  match extract symbol with
  | .error _ => naEntry symbol
  | .ok bars =>
    if bars.isEmpty || bars.length < 2 then naEntry symbol
    else
      let last_close := (closes bars).getLastD 0
      let prev_close := ((closes bars).dropLast).getLastD 0
      let change_pct := (last_close - prev_close) / prev_close * 100
      ⟨symbol, some (round2 last_close), some (round2 change_pct)⟩

/-- get_latest_market_data (ml_engine.py lines 32 to 72): a failed batch
download marks every symbol unavailable; otherwise each symbol is processed
independently, in the order of the input list. -/
def get_latest_market_data
    (download : Except String (String → Except String (List Bar)))
    (symbols : List String) : List QuoteEntry :=
  match download with
  | .error _ => symbols.map naEntry
  | .ok extract => symbols.map (processSymbol extract)

/-- One row of the sector-grouped popular stocks response. -/
structure PopEntry where
  symbol : String
  company_name : String
  price : Option ℚ
  change : Option ℚ
deriving DecidableEq

/-- The curated catalog of main.py get_popular_stocks (lines 320 to 327). -/
def catalog_config : List (String × List String) :=
  [("Indices", ["^NSEI", "^BSESN"]),
   ("Banking & Finance", ["HDFCBANK.NS", "ICICIBANK.NS", "SBIN.NS", "KOTAKBANK.NS",
      "AXISBANK.NS", "BAJFINANCE.NS", "LICI.NS"]),
   ("Technology (IT)", ["TCS.NS", "INFY.NS", "HCLTECH.NS", "WIPRO.NS", "TECHM.NS"]),
   ("Automotive", ["TATAMOTORS.NS", "MARUTI.NS", "M&M.NS", "EICHERMOT.NS"]),
   ("Energy & Conglomerates", ["RELIANCE.NS", "ONGC.NS", "NTPC.NS", "POWERGRID.NS",
      "ADANIENT.NS"]),
   ("FMCG & Consumer", ["ITC.NS", "HINDUNILVR.NS", "NESTLEIND.NS", "TITAN.NS",
      "ASIANPAINT.NS"])]

/-- The display name map of main.py get_popular_stocks (lines 330 to 338). -/
def company_names : List (String × String) :=
  [("^NSEI", "NIFTY 50"), ("^BSESN", "SENSEX"),
   ("HDFCBANK.NS", "HDFC Bank"), ("ICICIBANK.NS", "ICICI Bank"),
   ("SBIN.NS", "State Bank of India"), ("KOTAKBANK.NS", "Kotak Mahindra Bank"),
   ("AXISBANK.NS", "Axis Bank"), ("BAJFINANCE.NS", "Bajaj Finance"),
   ("LICI.NS", "LIC India"), ("TCS.NS", "Tata Consultancy Services"),
   ("INFY.NS", "Infosys"), ("HCLTECH.NS", "HCL Technologies"),
   ("WIPRO.NS", "Wipro"), ("TECHM.NS", "Tech Mahindra"),
   ("TATAMOTORS.NS", "Tata Motors"), ("MARUTI.NS", "Maruti Suzuki"),
   ("M&M.NS", "Mahindra & Mahindra"), ("EICHERMOT.NS", "Eicher Motors"),
   ("RELIANCE.NS", "Reliance Industries"), ("ONGC.NS", "ONGC"),
   ("NTPC.NS", "NTPC"), ("POWERGRID.NS", "Power Grid Corp"),
   ("ADANIENT.NS", "Adani Enterprises"), ("ITC.NS", "ITC Limited"),
   ("HINDUNILVR.NS", "Hindustan Unilever"), ("NESTLEIND.NS", "Nestle India"),
   ("TITAN.NS", "Titan Company"), ("ASIANPAINT.NS", "Asian Paints")]

/-- Lookup in the dictionary built from the batch result, later entries
winning as in a Python dict comprehension, with the unavailable default of
line 350. -/
def dataBySymbol (market_data : List QuoteEntry) (sym : String) : QuoteEntry :=
  match market_data.reverse.find? (fun it => it.symbol == sym) with
  | some it => it
  | none => naEntry sym

/-- Recomputation of the grouped popular stocks response (main.py lines 320
to 356): one batched latest-price call for the whole catalog, partitioned
back into the configured sectors, suffixes stripped for display. -/
def computePopular
    (download : Except String (String → Except String (List Bar))) :
    List (String × List PopEntry) :=
  let all_symbols := (catalog_config.map Prod.snd).flatten
  let market_data := get_latest_market_data download all_symbols
  catalog_config.map fun sector =>
    (sector.1, sector.2.map fun sym =>
      let info := dataBySymbol market_data sym
      { symbol := pyReplace (pyReplace sym ".NS" "") ".BO" "",
        company_name := ((company_names.find? (fun p => p.1 == sym)).map Prod.snd).getD sym,
        price := info.price, change := info.change })

/-- The process-wide popular stocks cache (main.py line 308). -/
structure CacheState where
  timestamp : ℚ
  data : List (String × List PopEntry)
deriving DecidableEq

/-- CACHE_DURATION of main.py line 309, in seconds. -/
def CACHE_DURATION : ℚ := 300

/-- get_popular_stocks (main.py lines 311 to 360) with an injected clock and
explicit cache state: serve the cached value while it is fresh, otherwise
recompute from one fresh batch download and replace the cache wholesale. -/
def get_popular_stocks (now : ℚ)
    (download : Except String (String → Except String (List Bar)))
    (cache : CacheState) : List (String × List PopEntry) × CacheState :=
  if now - cache.timestamp < CACHE_DURATION then (cache.data, cache)
  else
    let response_data := computePopular download
    (response_data, ⟨now, response_data⟩)

/-- A flat bar used by concrete test series. -/
def mkBar (d : Nat) (c : ℚ) : Bar := ⟨d, c, c, c, c, 0⟩

/-- Fifty bars all closing at 100: the most recent close equals the SMA-50. -/
def flatBars : List Bar := List.replicate 50 (mkBar 0 100)

/-- Forty-nine bars at 100 and one at 200: a deviation far above 9 percent. -/
def spikeBars : List Bar := List.replicate 49 (mkBar 0 100) ++ [mkBar 49 200]

/-- A store with no stock rows. -/
def emptyDB : DB := ⟨[], [], true⟩

/-- A store whose only stock row carries the suffixed canonical symbol. -/
def dbNS : DB := ⟨[⟨1, "RELIANCE.NS"⟩], [], true⟩

/-! Helper lemmas about the price store synchronizer. -/

theorem priceExists_append (prices l : List StockPrice) (sid d : Nat)
    (h : priceExists prices sid d = true) : priceExists (prices ++ l) sid d = true := by
  simp only [priceExists, List.any_append, Bool.or_eq_true]
  exact Or.inl h

theorem syncPrices_append_ex (prices : List StockPrice) (sid : Nat) (bars : List Bar) :
    ∃ t, syncPrices prices sid bars = prices ++ t := by
  induction bars generalizing prices with
  | nil => exact ⟨[], by simp [syncPrices]⟩
  | cons b rest ih =>
    by_cases h : priceExists prices sid b.date
    · obtain ⟨t, ht⟩ := ih prices
      exact ⟨t, by rw [syncPrices, if_pos h, ht]⟩
    · obtain ⟨t, ht⟩ := ih (prices ++ [mkStoredPrice sid b])
      exact ⟨mkStoredPrice sid b :: t, by rw [syncPrices, if_neg h, ht]; simp⟩

theorem priceExists_syncPrices (prices : List StockPrice) (sid : Nat) (bars : List Bar)
    (d : Nat) (h : priceExists prices sid d = true) :
    priceExists (syncPrices prices sid bars) sid d = true := by
  obtain ⟨t, ht⟩ := syncPrices_append_ex prices sid bars
  rw [ht]
  exact priceExists_append _ _ _ _ h

theorem priceExists_of_mem (prices : List StockPrice) (sid : Nat) (bars : List Bar)
    (b : Bar) (hb : b ∈ bars) :
    priceExists (syncPrices prices sid bars) sid b.date = true := by
  induction bars generalizing prices with
  | nil => cases hb
  | cons c rest ih =>
    rcases List.mem_cons.mp hb with rfl | hmem
    · have hstep : priceExists
          (if priceExists prices sid b.date then prices else prices ++ [mkStoredPrice sid b])
          sid b.date = true := by
        by_cases h : priceExists prices sid b.date
        · rwa [if_pos h]
        · rw [if_neg h]
          simp [priceExists, List.any_append, mkStoredPrice]
      rw [syncPrices]
      exact priceExists_syncPrices _ _ _ _ hstep
    · rw [syncPrices]
      exact ih _ hmem

theorem syncPrices_no_new (prices : List StockPrice) (sid : Nat) (bars : List Bar)
    (h : ∀ b ∈ bars, priceExists prices sid b.date = true) :
    syncPrices prices sid bars = prices := by
  induction bars with
  | nil => rfl
  | cons b rest ih =>
    rw [syncPrices, if_pos (h b (List.mem_cons_self b rest))]
    exact ih fun x hx => h x (List.mem_cons_of_mem _ hx)

/-- C6: the price-bar synchronization is idempotent — a second run over the
same series changes nothing, and a run never touches the bars already stored
(it only appends new dates). -/
theorem c6_sync_idempotent (prices : List StockPrice) (sid : Nat) (bars : List Bar) :
    syncPrices (syncPrices prices sid bars) sid bars = syncPrices prices sid bars ∧
    ∃ t, syncPrices prices sid bars = prices ++ t :=
  ⟨syncPrices_no_new _ _ _ fun b hb => priceExists_of_mem prices sid bars b hb,
   syncPrices_append_ex _ _ _⟩

/-! Helper lemmas about the symbol resolver. -/

theorem vtGo_eq_find (fetch : String → String → Except String (List Bar))
    (cs : List String) : vtGo fetch cs = cs.find? (probeOk fetch) := by
  induction cs with
  | nil => rfl
  | cons c rest ih =>
    rw [vtGo, List.find?]
    cases h : fetch c "1d" with
    | error e => simp [probeOk, h, ih]
    | ok hs =>
      by_cases he : hs.isEmpty
      · simp [probeOk, h, he, ih]
      · simp [probeOk, h, he]

theorem vtCandidates_eq_claim (symbol : String) :
    vtCandidates symbol = claimResolverCandidates symbol := by
  unfold vtCandidates claimResolverCandidates
  by_cases h1 : pyEndsWith (pyUpper symbol) ".NS" <;>
    by_cases h2 : pyEndsWith (pyUpper symbol) ".BO" <;> simp [h1, h2]

/-- C5: the resolver probes exactly the claimed candidate chain — only the
upper-cased input when it already carries a recognized suffix, otherwise raw
then .NS then .BO — returning the first candidate with a non-empty one-day
history; a per-candidate provider error merely fails that candidate (probeOk
is false on it) and the chain continues, and exhaustion yields none. -/
theorem c5_resolver_chain (fetch : String → String → Except String (List Bar))
    (symbol : String) :
    validate_ticker fetch symbol = (claimResolverCandidates symbol).find? (probeOk fetch) ∧
    vtCandidates symbol = claimResolverCandidates symbol := by
  refine ⟨?_, vtCandidates_eq_claim symbol⟩
  rw [validate_ticker, vtCandidates_eq_claim, vtGo_eq_find]

/-! Helper lemmas about the fallback chain of the trend predictor. -/

theorem fallback2_lift (pf : String → String → List Bar) (t chosen : String)
    (hist : List Bar) :
    fallback2 (fun s p => Except.ok (pf s p)) t (chosen, hist) =
      if hist.isEmpty && (chosen != t) then Except.ok (t, pf t "3mo")
      else Except.ok (chosen, hist) := by
  rw [fallback2]

/-- C3: on a provider that raises nothing, predict resolves its series by
probing exactly the claimed candidate chain — the symbol as given (suffixed
with .NS when it carries no exchange marker and no dot), then its .BO
variant, then the raw symbol — each step a 3-month history request, taking
the first non-empty result; when every candidate is empty the raw symbol is
reported with an empty series, so one empty step is never fatal by itself. -/
theorem c3_fallback_chain (pf : String → String → List Bar) (symbol : String) :
    fetchHistWithFallback (fun s p => Except.ok (pf s p)) symbol =
      Except.ok ((firstNonEmptyHist (fun s => pf s "3mo")
        (claimFallbackCandidates symbol)).getD (symbol, [])) := by
  unfold fetchHistWithFallback claimFallbackCandidates
  by_cases h1 : (pf (addNS symbol) "3mo").isEmpty
  · by_cases hb : pyEndsWith (addNS symbol) ".NS"
    · by_cases h2 : (pf (pyReplace (addNS symbol) ".NS" ".BO") "3mo").isEmpty
      · by_cases he : pyReplace (addNS symbol) ".NS" ".BO" = symbol
        · have h2s : (pf symbol "3mo").isEmpty := he ▸ h2
          simp [h1, hb, h2, he, h2s, fallback2_lift, firstNonEmptyHist,
            List.isEmpty_iff.mp h2s]
        · by_cases h3 : (pf symbol "3mo").isEmpty
          · simp [h1, hb, h2, he, h3, fallback2_lift, firstNonEmptyHist,
              List.isEmpty_iff.mp h3]
          · simp [h1, hb, h2, he, h3, fallback2_lift, firstNonEmptyHist]
      · simp [h1, hb, h2, fallback2_lift, firstNonEmptyHist]
    · by_cases he : addNS symbol = symbol
      · have hb2 : ¬pyEndsWith symbol ".NS" = true := he ▸ hb
        have h1s : (pf symbol "3mo").isEmpty = true := he ▸ h1
        simp [h1, hb, he, hb2, h1s, fallback2_lift, firstNonEmptyHist,
          List.isEmpty_iff.mp h1s]
      · by_cases h3 : (pf symbol "3mo").isEmpty
        · simp [h1, hb, he, h3, fallback2_lift, firstNonEmptyHist,
            List.isEmpty_iff.mp h3]
        · simp [h1, hb, he, h3, fallback2_lift, firstNonEmptyHist]
  · simp [h1, fallback2_lift, firstNonEmptyHist]

/-! Helper lemmas about rounding and the confidence computation. -/

theorem floor_le_roundHalfEven (x : ℚ) : ⌊x⌋ ≤ roundHalfEven x := by
  unfold roundHalfEven
  split_ifs <;> omega

theorem roundHalfEven_le_of_le (x : ℚ) (n : ℤ) (h : x ≤ n) : roundHalfEven x ≤ n := by
  have hf : ⌊x⌋ ≤ n := by
    have := Int.floor_mono h
    simpa using this
  unfold roundHalfEven
  split_ifs with hlt hgt hev
  · exact hf
  · rcases lt_or_eq_of_le hf with h1 | h1
    · omega
    · exfalso
      have hx : x ≤ (⌊x⌋ : ℚ) := by rw [h1]; exact_mod_cast h
      linarith
  · exact hf
  · rcases lt_or_eq_of_le hf with h1 | h1
    · omega
    · exfalso
      have hx : x ≤ (⌊x⌋ : ℚ) := by rw [h1]; exact_mod_cast h
      linarith

theorem round2_mem (x : ℚ) (h1 : 1/2 ≤ x) (h2 : x ≤ 95/100) :
    1/2 ≤ round2 x ∧ round2 x ≤ 95/100 := by
  have hlow : (50 : ℤ) ≤ roundHalfEven (x * 100) :=
    le_trans (Int.le_floor.mpr (by push_cast; linarith)) (floor_le_roundHalfEven _)
  have hhigh : roundHalfEven (x * 100) ≤ (95 : ℤ) :=
    roundHalfEven_le_of_le _ _ (by push_cast; linarith)
  have hlow90 : (50 : ℚ) ≤ (roundHalfEven (x * 100) : ℚ) := by exact_mod_cast hlow
  have hhigh90 : (roundHalfEven (x * 100) : ℚ) ≤ 95 := by exact_mod_cast hhigh
  rw [round2]
  constructor <;> linarith

theorem round2_95 : round2 (95/100) = 95/100 := by
  have h : ((95 : ℚ)/100) * 100 = 95 := by norm_num
  rw [round2, h, roundHalfEven]
  norm_num

theorem computePrediction_confidence (d : Nat) (hist : List Bar)
    (hpos : 0 < sma50 (closes hist)) :
    (computePrediction d hist).confidence =
      round2 (min (1/2 + 5 * (|lastClose hist - sma50 (closes hist)| / sma50 (closes hist)))
        (95/100)) := by
  have habs1 : |(lastClose hist - sma50 (closes hist)) / sma50 (closes hist)| * 5
      = 5 * (|lastClose hist - sma50 (closes hist)| / sma50 (closes hist)) := by
    rw [abs_div, abs_of_pos hpos]; ring
  have habs2 : |(sma50 (closes hist) - lastClose hist) / sma50 (closes hist)| * 5
      = 5 * (|lastClose hist - sma50 (closes hist)| / sma50 (closes hist)) := by
    rw [abs_div, abs_of_pos hpos, abs_sub_comm]; ring
  simp only [computePrediction]
  split_ifs with hcmp
  · simp only [habs1]
  · simp only [habs2]

theorem computePrediction_conf_mem (d : Nat) (hist : List Bar) :
    1/2 ≤ (computePrediction d hist).confidence ∧
    (computePrediction d hist).confidence ≤ 95/100 := by
  have key : ∀ q : ℚ, 1/2 ≤ round2 (min (1/2 + |q| * 5) (95/100)) ∧
      round2 (min (1/2 + |q| * 5) (95/100)) ≤ 95/100 := by
    intro q
    apply round2_mem
    · exact le_min (by nlinarith [abs_nonneg q]) (by norm_num)
    · exact min_le_right _ _
  simp only [computePrediction]
  split_ifs with hcmp
  · exact key _
  · exact key _

/-! Reduction lemmas for predict on a provider stub returning a fixed series. -/

theorem fetchHistWithFallback_const (hist : List Bar) (hne : hist ≠ []) (t : String) :
    fetchHistWithFallback (fun _ _ => Except.ok hist) t = Except.ok (addNS t, hist) := by
  have he : hist.isEmpty = false := by simpa [List.isEmpty_iff] using hne
  unfold fetchHistWithFallback fallback2
  simp [he]

theorem predict_const_fst (d : Nat) (hist : List Bar) (hne : hist ≠ []) (db : DB)
    (s : String) :
    (predict_stock_trend ⟨fun _ _ => Except.ok hist, d⟩ db s).1 =
      if hist.length < 50 then neutralResult d else computePrediction d hist := by
  have he : hist.isEmpty = false := by simpa [List.isEmpty_iff] using hne
  unfold predict_stock_trend predictBody
  simp only [fetchHistWithFallback_const hist hne, he, Bool.false_eq_true, if_false]
  split_ifs <;> rfl

/-- C1: on a series of at least 50 bars with positive SMA-50, the confidence
of the UP or DOWN outcome is min(0.5 + 5 times the relative deviation of the
close from the SMA-50, 0.95) rounded to two decimals, always lies in
[0.5, 0.95], and is clamped to exactly 0.95 once the deviation reaches 9
percent. -/
theorem c1_confidence_formula (d : Nat) (hist : List Bar) (db : DB) (s : String)
    (h50 : 50 ≤ hist.length) (hpos : 0 < sma50 (closes hist)) :
    (predict_stock_trend ⟨fun _ _ => Except.ok hist, d⟩ db s).1.confidence =
      round2 (min (1/2 + 5 * (|lastClose hist - sma50 (closes hist)| / sma50 (closes hist)))
        (95/100)) ∧
    1/2 ≤ (predict_stock_trend ⟨fun _ _ => Except.ok hist, d⟩ db s).1.confidence ∧
    (predict_stock_trend ⟨fun _ _ => Except.ok hist, d⟩ db s).1.confidence ≤ 95/100 ∧
    (9/100 ≤ |lastClose hist - sma50 (closes hist)| / sma50 (closes hist) →
      (predict_stock_trend ⟨fun _ _ => Except.ok hist, d⟩ db s).1.confidence = 95/100) := by
  have hne : hist ≠ [] := by
    intro h
    rw [h] at h50
    simp at h50
  have hnlt : ¬hist.length < 50 := not_lt.mpr h50
  rw [predict_const_fst d hist hne db s, if_neg hnlt]
  refine ⟨computePrediction_confidence d hist hpos, (computePrediction_conf_mem d hist).1,
    (computePrediction_conf_mem d hist).2, fun hdev => ?_⟩
  rw [computePrediction_confidence d hist hpos, min_eq_right (by linarith), round2_95]

theorem closes_spikeBars : closes spikeBars = List.replicate 49 (100 : ℚ) ++ [200] := by
  simp [closes, spikeBars, mkBar]

theorem sma50_spikeBars : sma50 (closes spikeBars) = 102 := by
  rw [closes_spikeBars]
  simp [sma50, List.sum_replicate]
  norm_num

theorem lastClose_spikeBars : lastClose spikeBars = 200 := by
  rw [lastClose, closes_spikeBars, List.getLastD_concat]

/-- Witness for C1 at a concrete 50-bar series whose last close is double the
others: the deviation exceeds 9 percent and the confidence is clamped. -/
theorem c1_confidence_formula_witness :
    (50 ≤ spikeBars.length ∧ 0 < sma50 (closes spikeBars) ∧
      9/100 ≤ |lastClose spikeBars - sma50 (closes spikeBars)| / sma50 (closes spikeBars)) ∧
    (predict_stock_trend ⟨fun _ _ => Except.ok spikeBars, 0⟩ emptyDB "TCS.NS").1.confidence
      = 95/100 :=
  ⟨⟨by simp [spikeBars], by rw [sma50_spikeBars]; norm_num,
    by rw [sma50_spikeBars, lastClose_spikeBars]; norm_num⟩,
   (c1_confidence_formula 0 spikeBars emptyDB "TCS.NS" (by simp [spikeBars])
       (by rw [sma50_spikeBars]; norm_num)).2.2.2
     (by rw [sma50_spikeBars, lastClose_spikeBars]; norm_num)⟩

/-- C2: with at least 50 bars, UP is returned exactly when the most recent
close is strictly above the SMA-50; a close exactly equal to the SMA-50 falls
to the DOWN branch. -/
theorem c2_tie_breaks_down (d : Nat) (hist : List Bar) (db : DB) (s : String)
    (h50 : 50 ≤ hist.length) :
    ((predict_stock_trend ⟨fun _ _ => Except.ok hist, d⟩ db s).1.prediction = Signal.UP ↔
      sma50 (closes hist) < lastClose hist) ∧
    (lastClose hist = sma50 (closes hist) →
      (predict_stock_trend ⟨fun _ _ => Except.ok hist, d⟩ db s).1.prediction = Signal.DOWN) := by
  have hne : hist ≠ [] := by
    intro h
    rw [h] at h50
    simp at h50
  have hnlt : ¬hist.length < 50 := not_lt.mpr h50
  rw [predict_const_fst d hist hne db s, if_neg hnlt]
  constructor
  · simp only [computePrediction]
    split_ifs with h
    · simp [h]
    · simp [h]
  · intro heq
    simp only [computePrediction]
    rw [if_neg (by rw [heq]; exact lt_irrefl _)]

theorem closes_flatBars : closes flatBars = List.replicate 50 (100 : ℚ) := by
  simp [closes, flatBars, mkBar]

theorem sma50_flatBars : sma50 (closes flatBars) = 100 := by
  rw [closes_flatBars]
  simp [sma50, List.sum_replicate]
  norm_num

theorem lastClose_flatBars : lastClose flatBars = 100 := by
  rw [lastClose, closes_flatBars, show (50 : Nat) = 49 + 1 from rfl,
    List.replicate_succ', List.getLastD_concat]

/-- Witness for C2 at fifty flat bars: close and SMA-50 are both 100 and the
signal is DOWN. -/
theorem c2_tie_breaks_down_witness :
    (50 ≤ flatBars.length ∧ lastClose flatBars = sma50 (closes flatBars)) ∧
    (predict_stock_trend ⟨fun _ _ => Except.ok flatBars, 0⟩ emptyDB "TCS.NS").1.prediction
      = Signal.DOWN :=
  ⟨⟨by simp [flatBars], by rw [lastClose_flatBars, sma50_flatBars]⟩,
   (c2_tie_breaks_down 0 flatBars emptyDB "TCS.NS" (by simp [flatBars])).2
     (by rw [lastClose_flatBars, sma50_flatBars])⟩

/-- C4 as frozen is false at the empty series: zero bars are fewer than 50,
yet predict returns UNKNOWN with confidence 0.0, not NEUTRAL with 0.5. -/
theorem c4_counterexample :
    ([] : List Bar).length < 50 ∧
    (predict_stock_trend ⟨fun _ _ => Except.ok ([] : List Bar), 0⟩ emptyDB "AAPL.BO").1
      = unknownResult 0 ∧
    (predict_stock_trend ⟨fun _ _ => Except.ok ([] : List Bar), 0⟩ emptyDB "AAPL.BO").1.prediction
      ≠ Signal.NEUTRAL ∧
    (predict_stock_trend ⟨fun _ _ => Except.ok ([] : List Bar), 0⟩ emptyDB "AAPL.BO").1.confidence
      ≠ 1/2 := by
  refine ⟨by norm_num, rfl, by decide, ?_⟩
  show (0 : ℚ) ≠ 1/2
  norm_num

/-- C4 amended: on a non-empty series of fewer than 50 bars, predict returns
the fixed NEUTRAL result with confidence 0.5 regardless of the price shape. -/
theorem c4_neutral_under_50 (d : Nat) (hist : List Bar) (db : DB) (s : String)
    (hne : hist ≠ []) (hlt : hist.length < 50) :
    (predict_stock_trend ⟨fun _ _ => Except.ok hist, d⟩ db s).1 = neutralResult d := by
  rw [predict_const_fst d hist hne db s, if_pos hlt]

/-- Witness for the amended C4 at a one-bar series. -/
theorem c4_neutral_under_50_witness :
    ([mkBar 0 100] ≠ ([] : List Bar) ∧ [mkBar 0 100].length < 50) ∧
    (predict_stock_trend ⟨fun _ _ => Except.ok [mkBar 0 100], 0⟩ emptyDB "TCS").1
      = neutralResult 0 :=
  ⟨⟨by simp, by norm_num⟩,
   c4_neutral_under_50 0 [mkBar 0 100] emptyDB "TCS" (by simp) (by norm_num)⟩

/-! Helper lemmas for the never-raise policy. -/

theorem predictBody_ok_shape (env : Env) (db : DB) (s : String) (r : PredictResult)
    (db2 : DB) (h : predictBody env db s = Except.ok (r, db2)) :
    r = unknownResult env.today ∨ r = neutralResult env.today ∨
    ∃ hist, r = computePrediction env.today hist := by
  simp only [predictBody] at h
  cases hf : fetchHistWithFallback env.fetch (pyUpper s) with
  | error e => rw [hf] at h; exact absurd h (by simp)
  | ok p =>
    obtain ⟨c, hist⟩ := p
    rw [hf] at h
    by_cases hemp : hist.isEmpty
    · simp only [hemp, if_true, if_pos] at h
      left
      exact ((Prod.mk.injEq _ _ _ _).mp (Except.ok.inj h)).1.symm
    · by_cases hlen : hist.length < 50
      · simp only [hemp, Bool.false_eq_true, if_false, hlen, if_true] at h
        right; left
        exact ((Prod.mk.injEq _ _ _ _).mp (Except.ok.inj h)).1.symm
      · simp only [hemp, Bool.false_eq_true, if_false, hlen] at h
        right; right
        exact ⟨hist, ((Prod.mk.injEq _ _ _ _).mp (Except.ok.inj h)).1.symm⟩

theorem predict_conf_mem (env : Env) (db : DB) (s : String) :
    0 ≤ (predict_stock_trend env db s).1.confidence ∧
    (predict_stock_trend env db s).1.confidence ≤ 1 := by
  unfold predict_stock_trend
  cases hb : predictBody env db s with
  | error e => exact ⟨le_refl 0, show (0 : ℚ) ≤ 1 by norm_num⟩
  | ok p =>
    obtain ⟨r, db2⟩ := p
    have hgoal : 0 ≤ r.confidence ∧ r.confidence ≤ 1 := by
      rcases predictBody_ok_shape env db s r db2 hb with h | h | ⟨hist, h⟩
      · subst h; exact ⟨le_refl 0, show (0 : ℚ) ≤ 1 by norm_num⟩
      · subst h
        exact ⟨show (0 : ℚ) ≤ 1/2 by norm_num, show (1 : ℚ)/2 ≤ 1 by norm_num⟩
      · subst h
        have hm := computePrediction_conf_mem env.today hist
        exact ⟨by linarith [hm.1], by linarith [hm.2]⟩
    exact hgoal

theorem int_trunc_mem (x : ℚ) (h0 : 0 ≤ x) (h1 : x ≤ 100) :
    0 ≤ int_trunc x ∧ int_trunc x ≤ 100 := by
  rw [int_trunc, if_pos h0]
  constructor
  · exact Int.le_floor.mpr (by exact_mod_cast h0)
  · have hfl : (⌊x⌋ : ℚ) ≤ x := Int.floor_le x
    have : (⌊x⌋ : ℚ) ≤ 100 := le_trans hfl h1
    exact_mod_cast this

theorem sentimentBody_ok_shape (env : Env) (db : DB) (r : SentimentResult)
    (h : sentimentBody env db = Except.ok r) :
    (r.sentiment = "Bullish" ∨ r.sentiment = "Bearish" ∨ r.sentiment = "Neutral") ∧
    r.confidence = int_trunc ((predict_stock_trend env db "^NSEI").1.confidence * 100) := by
  unfold sentimentBody at h
  cases hf : env.fetch "^INDIAVIX" "1d" with
  | error e => rw [hf] at h; exact absurd h (by simp)
  | ok vh =>
    rw [hf] at h
    have hr := (Except.ok.inj h).symm
    subst hr
    constructor
    · split_ifs <;> simp
    · rfl

/-- C7: neither predict nor the sentiment aggregator lets a raised exception
reach the caller — every outcome is a well-formed result with confidence in
range, a raised body in predict maps to the ERROR result stamped with today,
and a raised body in the aggregator maps to the Neutral zero result carrying
the error note. -/
theorem c7_never_raises (env : Env) (db : DB) (s : String) :
    (0 ≤ (predict_stock_trend env db s).1.confidence ∧
      (predict_stock_trend env db s).1.confidence ≤ 1) ∧
    (∀ e, predictBody env db s = Except.error e →
      predict_stock_trend env db s = (errorResult env.today, db)) ∧
    ((get_market_sentiment env db).sentiment = "Bullish" ∨
      (get_market_sentiment env db).sentiment = "Bearish" ∨
      (get_market_sentiment env db).sentiment = "Neutral") ∧
    (0 ≤ (get_market_sentiment env db).confidence ∧
      (get_market_sentiment env db).confidence ≤ 100) ∧
    (∀ e, sentimentBody env db = Except.error e →
      get_market_sentiment env db =
        { sentiment := "Neutral", confidence := 0, vix := 0,
          nifty_price := 0, error := some e }) := by
  have hsent : ((get_market_sentiment env db).sentiment = "Bullish" ∨
      (get_market_sentiment env db).sentiment = "Bearish" ∨
      (get_market_sentiment env db).sentiment = "Neutral") ∧
      (0 ≤ (get_market_sentiment env db).confidence ∧
        (get_market_sentiment env db).confidence ≤ 100) := by
    unfold get_market_sentiment
    cases hb : sentimentBody env db with
    | error e => exact ⟨Or.inr (Or.inr rfl), by norm_num⟩
    | ok r =>
      obtain ⟨hs, hc⟩ := sentimentBody_ok_shape env db r hb
      refine ⟨hs, ?_⟩
      rw [hc]
      have hp := predict_conf_mem env db "^NSEI"
      exact int_trunc_mem _ (by linarith [hp.1]) (by linarith [hp.2])
  refine ⟨predict_conf_mem env db s, fun e he => ?_, hsent.1, hsent.2, fun e he => ?_⟩
  · unfold predict_stock_trend
    rw [he]
  · unfold get_market_sentiment
    rw [he]

/-- Witness for C7 on an always-raising provider: the body errors and both
callers return the degraded results. -/
theorem c7_never_raises_witness :
    (predictBody ⟨fun _ _ => Except.error "provider down", 7⟩ emptyDB "TCS"
        = Except.error "provider down" ∧
      predict_stock_trend ⟨fun _ _ => Except.error "provider down", 7⟩ emptyDB "TCS"
        = (errorResult 7, emptyDB)) ∧
    (sentimentBody ⟨fun _ _ => Except.error "provider down", 7⟩ emptyDB
        = Except.error "provider down" ∧
      get_market_sentiment ⟨fun _ _ => Except.error "provider down", 7⟩ emptyDB
        = { sentiment := "Neutral", confidence := 0, vix := 0,
            nifty_price := 0, error := some "provider down" }) :=
  ⟨⟨rfl, (c7_never_raises ⟨fun _ _ => Except.error "provider down", 7⟩ emptyDB "TCS").2.1
      "provider down" rfl⟩,
   ⟨rfl, (c7_never_raises ⟨fun _ _ => Except.error "provider down", 7⟩ emptyDB "TCS").2.2.2.2
      "provider down" rfl⟩⟩

/-- C8: in the batch latest-price fetch, a per-symbol extraction failure
yields the unavailable marker for that symbol alone, while every other
symbol's entry is exactly what the unfailing extractor computes. -/
theorem c8_batch_isolation (extract : String → Except String (List Bar))
    (symbols : List String) (s e : String) :
    get_latest_market_data
        (Except.ok (fun x => if x = s then Except.error e else extract x)) symbols =
      symbols.map (fun x => if x = s then naEntry x else processSymbol extract x) := by
  show (symbols.map (processSymbol fun x => if x = s then Except.error e else extract x)) =
    symbols.map (fun x => if x = s then naEntry x else processSymbol extract x)
  have hfn : processSymbol (fun y => if y = s then Except.error e else extract y) =
      fun x => if x = s then naEntry x else processSymbol extract x := by
    funext x
    by_cases hx : x = s
    · subst hx
      simp [processSymbol]
    · simp only [processSymbol, if_neg hx]
  rw [hfn]

/-- C9: a popularQuotes call within the TTL of the last recompute returns the
cached value unchanged whatever the provider now says, and a call at or past
the TTL recomputes from a fresh batch download and replaces the cached value
wholesale. -/
theorem c9_quote_cache_ttl (cache : CacheState) (t1 t2 t3 : ℚ)
    (dl1 dl2 dl3 : Except String (String → Except String (List Bar)))
    (h1 : ¬t1 - cache.timestamp < CACHE_DURATION) :
    get_popular_stocks t1 dl1 cache = (computePopular dl1, ⟨t1, computePopular dl1⟩) ∧
    (t2 - t1 < CACHE_DURATION →
      get_popular_stocks t2 dl2 ⟨t1, computePopular dl1⟩ =
        (computePopular dl1, ⟨t1, computePopular dl1⟩)) ∧
    (¬t3 - t1 < CACHE_DURATION →
      get_popular_stocks t3 dl3 ⟨t1, computePopular dl1⟩ =
        (computePopular dl3, ⟨t3, computePopular dl3⟩)) := by
  refine ⟨?_, fun h2 => ?_, fun h3 => ?_⟩
  · rw [get_popular_stocks, if_neg h1]
  · rw [get_popular_stocks, if_pos h2]
  · rw [get_popular_stocks, if_neg h3]

/-- Witness for C9 with concrete clock readings 1000, 1100 and 1400 against
providers that change between calls: the fresh cache is served unchanged
within the TTL and replaced wholesale after it. -/
theorem c9_quote_cache_ttl_witness :
    (¬(1000 : ℚ) - (⟨0, []⟩ : CacheState).timestamp < CACHE_DURATION) ∧
    get_popular_stocks 1100 (Except.error "b") ⟨1000, computePopular (Except.error "a")⟩ =
      (computePopular (Except.error "a"), ⟨1000, computePopular (Except.error "a")⟩) ∧
    get_popular_stocks 1400 (Except.error "c") ⟨1000, computePopular (Except.error "a")⟩ =
      (computePopular (Except.error "c"), ⟨1400, computePopular (Except.error "c")⟩) :=
  ⟨by show ¬(1000 : ℚ) - 0 < CACHE_DURATION; rw [CACHE_DURATION]; norm_num,
   (c9_quote_cache_ttl ⟨0, []⟩ 1000 1100 1400 (Except.error "a") (Except.error "b")
       (Except.error "c")
       (by show ¬(1000 : ℚ) - 0 < CACHE_DURATION; rw [CACHE_DURATION]; norm_num)).2.1
     (by rw [CACHE_DURATION]; norm_num),
   (c9_quote_cache_ttl ⟨0, []⟩ 1000 1100 1400 (Except.error "a") (Except.error "b")
       (Except.error "c")
       (by show ¬(1000 : ℚ) - 0 < CACHE_DURATION; rw [CACHE_DURATION]; norm_num)).2.2
     (by rw [CACHE_DURATION]; norm_num)⟩

/-- C10: when no stock row matches the upper-cased raw input, predict leaves
the durable store entirely unchanged — even when a non-empty series was
fetched under a fallback candidate — and still computes the same prediction
it would compute against an empty store. -/
theorem c10_no_stock_no_persist (env : Env) (db : DB) (s : String)
    (hnone : ∀ st ∈ db.stocks, st.symbol ≠ pyUpper s) :
    (predict_stock_trend env db s).2 = db ∧
    (predict_stock_trend env db s).1 =
      (predict_stock_trend env ⟨[], [], true⟩ s).1 := by
  have hf : db.stocks.find? (fun st => st.symbol == pyUpper s) = none := by
    apply List.find?_eq_none.mpr
    intro st hst
    simpa using hnone st hst
  unfold predict_stock_trend predictBody
  cases hfetch : fetchHistWithFallback env.fetch (pyUpper s) with
  | error e => simp [hfetch]
  | ok p =>
    obtain ⟨c, hist⟩ := p
    by_cases hemp : hist.isEmpty
    · simp [hfetch, hemp]
    · by_cases hlen : hist.length < 50
      · simp [hfetch, hemp, hlen, hf, List.find?]
      · simp [hfetch, hemp, hlen, hf, List.find?]

/-- Witness for C10: the store knows only RELIANCE.NS, predict is called with
RELIANCE and fetches a 50-bar series, yet the store is untouched and the
prediction matches the empty-store run. -/
theorem c10_no_stock_no_persist_witness :
    (∀ st ∈ dbNS.stocks, st.symbol ≠ pyUpper "RELIANCE") ∧
    (predict_stock_trend ⟨fun _ _ => Except.ok spikeBars, 0⟩ dbNS "RELIANCE").2 = dbNS ∧
    (predict_stock_trend ⟨fun _ _ => Except.ok spikeBars, 0⟩ dbNS "RELIANCE").1 =
      (predict_stock_trend ⟨fun _ _ => Except.ok spikeBars, 0⟩ ⟨[], [], true⟩ "RELIANCE").1 :=
  ⟨by decide,
   (c10_no_stock_no_persist ⟨fun _ _ => Except.ok spikeBars, 0⟩ dbNS "RELIANCE"
       (by decide)).1,
   (c10_no_stock_no_persist ⟨fun _ _ => Except.ok spikeBars, 0⟩ dbNS "RELIANCE"
       (by decide)).2⟩

end StockTrend
